import Mathlib

/-!
Shallow embedding of the feature-processing module (`src/services/email.py`):
configuration, validation, cache, retry loop with exponential backoff,
metrics counters, and the batch dispatcher, together with theorems settling
the specification claims about them.

Python dictionaries are modelled as association lists, Python values of
type `Any` by the inductive `Value`, and the fallible external operation
(`_execute_processing`, treated by the retry loop as an opaque collaborator
that may raise) by an oracle `exec : Nat → Except String ResultRecord`
indexed by the running count of invocations.  The state record carries two
instrumentation fields, `calls` (how many times the external operation has
been invoked) and `backoffs` (the list of backoff sleep durations, in
order), which record the observable effects the claims speak about.
-/

set_option autoImplicit false

namespace Feature

/-- A Python value of static type `Any`, as far as the claims need it:
strings, integers, and otherwise-opaque objects identified by a tag. -/
inductive Value where
  | str : String → Value
  | int : Int → Value
  | obj : Nat → Value
deriving DecidableEq, Repr

/-- Python `str()` of a value, used by the f-string building the cache key. -/
def pyStr : Value → String
  | Value.str s => s
  | Value.int n => toString n
  | Value.obj n => "object" ++ toString n

/-- Lookup in an association list modelling a Python dict (`d[k]` / `k in d`). -/
def alistGet {α : Type} (k : String) : List (String × α) → Option α
  | [] => none
  | (k₂, v) :: rest => if k₂ = k then some v else alistGet k rest

/-- Python dict assignment `d[k] = v`: overwrite in place, append if absent. -/
def dictStore {α : Type} (k : String) (v : α) : List (String × α) → List (String × α)
  | [] => [(k, v)]
  | (k₂, v₂) :: rest => if k₂ = k then (k, v) :: rest else (k₂, v₂) :: dictStore k v rest

/-- An input record: a Python dict from field names to values. -/
abbrev InputRecord := List (String × Value)

/-- `FeatureConfig`: the configuration dataclass.  `max_retries` and
`timeout` are Python ints (which may be negative — the dataclass performs
no range validation). -/
structure FeatureConfig where
  max_retries : Int := 3
  timeout : Int := 30
  cache_enabled : Bool := true
  metadata : List (String × Value) := []
deriving DecidableEq, Repr

/-- The result dict built by `_execute_processing`:
`\x7b'success': True, 'data': payload, 'processed_at': now, 'config': metadata\x7d`. -/
structure ResultRecord where
  success : Bool
  data : Value
  processed_at : String
  config : List (String × Value)
deriving DecidableEq, Repr

/-- Errors `process` and the factory can raise.  `validationError` models
`ValueError`, `processingError` models `RuntimeError` (carrying the message
and, when raised `from e`, the wrapped cause). -/
inductive ProcError where
  | validationError : String → ProcError
  | processingError : String → Option String → ProcError
deriving DecidableEq, Repr

/-- The mutable state of one `FeatureProcessor`: the cache dict, the three
metrics counters, plus instrumentation (`calls`: number of invocations of
the external operation so far; `backoffs`: backoff sleeps performed, in
order). -/
structure ProcState where
  cache : List (String × ResultRecord) := []
  processed : Nat := 0
  failed : Nat := 0
  cache_hits : Nat := 0
  calls : Nat := 0
  backoffs : List Nat := []
deriving DecidableEq, Repr

/-- The fresh state built by `FeatureProcessor.__init__`. -/
def initState : ProcState := {}

/-- `FeatureProcessor.validate`: true iff all of `id`, `timestamp`,
`payload` are present in the record. -/
def validate (data : InputRecord) : Bool :=
  ["id", "timestamp", "payload"].all (fun f => (alistGet f data).isSome)

/-- The cache key f-string `"\x7bdata['id']\x7d:\x7bdata['timestamp']\x7d"`. -/
def cacheKey (data : InputRecord) : String :=
  pyStr ((alistGet "id" data).getD (Value.str "")) ++ ":" ++
    pyStr ((alistGet "timestamp" data).getD (Value.str ""))

/-- The metrics snapshot dict. -/
structure Metrics where
  processed : Nat
  failed : Nat
  cache_hits : Nat
deriving DecidableEq, Repr

/-- `FeatureProcessor.get_metrics`: returns a copy of the counters; the
state component of the result records that reading has no side effect. -/
def get_metrics (s : ProcState) : Metrics × ProcState :=
  (⟨s.processed, s.failed, s.cache_hits⟩, s)

/-- `FeatureProcessor.clear_cache`: empties the cache dict. -/
def clear_cache (s : ProcState) : ProcState :=
  { s with cache := [] }

/-- The retry loop `for attempt in range(max_retries)` of
`FeatureProcessor.process`.  `fuel` is the number of iterations left
(initially `max_retries.toNat`, since `range` of a non-positive int is
empty), `attempt` the current zero-based index.  Each iteration invokes the
oracle at the current call count; on success it stores to the cache (when
enabled) and bumps `processed`; on failure it either bumps `failed` and
raises `RuntimeError(...) from e` when `attempt == max_retries - 1`, or
sleeps `2 ^ attempt` and retries.  Exhausted fuel is the fall-through
`raise RuntimeError("Unexpected processing failure")` after the loop. -/
def processLoop (cfg : FeatureConfig) (ex : Nat → Except String ResultRecord)
    (key : String) : Nat → Nat → ProcState → Except ProcError ResultRecord × ProcState
  | 0, _, s => (Except.error (ProcError.processingError "Unexpected processing failure" none), s)
  | fuel + 1, attempt, s =>
    let s₁ : ProcState := { s with calls := s.calls + 1 }
    match ex s.calls with
    | Except.ok result =>
      let s₂ : ProcState :=
        if cfg.cache_enabled then { s₁ with cache := dictStore key result s₁.cache } else s₁
      (Except.ok result, { s₂ with processed := s₂.processed + 1 })
    | Except.error e =>
      if (attempt : Int) = cfg.max_retries - 1 then
        (Except.error (ProcError.processingError
          ("Processing failed after " ++ toString cfg.max_retries ++ " attempts") (some e)),
          { s₁ with failed := s₁.failed + 1 })
      else
        processLoop cfg ex key fuel (attempt + 1) { s₁ with backoffs := s₁.backoffs ++ [2 ^ attempt] }

/-- `FeatureProcessor.process`: validate, consult the cache, then run the
retry loop.  The external operation is the oracle `ex`. -/
def process (cfg : FeatureConfig) (ex : Nat → Except String ResultRecord)
    (data : InputRecord) (s : ProcState) : Except ProcError ResultRecord × ProcState :=
  if validate data then
    let key := cacheKey data
    match (if cfg.cache_enabled then alistGet key s.cache else none) with
    | some r => (Except.ok r, { s with cache_hits := s.cache_hits + 1 })
    | none => processLoop cfg ex key cfg.max_retries.toNat 0 s
  else
    (Except.error (ProcError.validationError "Invalid input data structure"), s)

/-- The successful branch of `_execute_processing`: echo the payload,
attach the timestamp string `now` and the configuration metadata. -/
def executeProcessing (cfg : FeatureConfig) (data : InputRecord) (now : String) : ResultRecord :=
  { success := true
    data := (alistGet "payload" data).getD (Value.str "")
    processed_at := now
    config := cfg.metadata }

/-- A value in a configuration mapping passed to the factory function. -/
inductive ConfigValue where
  | int : Int → ConfigValue
  | bool : Bool → ConfigValue
  | dict : List (String × Value) → ConfigValue
deriving DecidableEq, Repr

/-- Construction-time error: `TypeError` raised by `FeatureConfig(**config)`
on an unexpected keyword argument (the ConfigurationError of the spec). -/
inductive ConfigError where
  | typeError : String → ConfigError
deriving DecidableEq, Repr

/-- The field names of the `FeatureConfig` dataclass. -/
def featureConfigFields : List String :=
  ["max_retries", "timeout", "cache_enabled", "metadata"]

/-- Field extraction helpers for `FeatureConfig(**config)`:
a present key of the right shape supplies the value, otherwise the
dataclass default stands. -/
def getIntField (d : List (String × ConfigValue)) (k : String) (dflt : Int) : Int :=
  match alistGet k d with
  | some (ConfigValue.int n) => n
  | _ => dflt

/-- Boolean field extraction for `FeatureConfig(**config)`. -/
def getBoolField (d : List (String × ConfigValue)) (k : String) (dflt : Bool) : Bool :=
  match alistGet k d with
  | some (ConfigValue.bool b) => b
  | _ => dflt

/-- Metadata field extraction for `FeatureConfig(**config)`. -/
def getDictField (d : List (String × ConfigValue)) (k : String) : List (String × Value) :=
  match alistGet k d with
  | some (ConfigValue.dict m) => m
  | _ => []

/-- `FeatureConfig(**config)`: raises `TypeError` on any key that is not a
dataclass field; otherwise builds the configuration, defaulting absent
fields.  No range check is performed on any value. -/
def FeatureConfig.ofDict (d : List (String × ConfigValue)) : Except ConfigError FeatureConfig :=
  match d.find? (fun kv => !(featureConfigFields.contains kv.fst)) with
  | some kv => Except.error (ConfigError.typeError kv.fst)
  | none => Except.ok
      { max_retries := getIntField d "max_retries" 3
        timeout := getIntField d "timeout" 30
        cache_enabled := getBoolField d "cache_enabled" true
        metadata := getDictField d "metadata" }

/-- `create_feature_processor`: build a configured processor from an
optional mapping (`None` and the empty dict are falsy and give defaults). -/
def create_feature_processor (config : Option (List (String × ConfigValue))) :
    Except ConfigError (FeatureConfig × ProcState) :=
  match config with
  | some d =>
    if d.isEmpty then Except.ok ({}, initState)
    else (FeatureConfig.ofDict d).map (fun c => (c, initState))
  | none => Except.ok ({}, initState)

/-- A processor held by the manager: its configuration and its state. -/
structure Processor where
  config : FeatureConfig
  state : ProcState
deriving DecidableEq, Repr

/-- Sequential elaboration of `asyncio.gather` over the per-item tasks of
one processor: each item is processed in order against the threaded state,
and with `return_exceptions=True` each per-item outcome (result or error)
lands in that item's slot. -/
def processSeq (cfg : FeatureConfig) (ex : Nat → Except String ResultRecord) :
    List InputRecord → ProcState → List (Except ProcError ResultRecord) × ProcState
  | [], s => ([], s)
  | item :: items, s =>
    let r := process cfg ex item s
    let rest := processSeq cfg ex items r.snd
    (r.fst :: rest.fst, rest.snd)

/-- `FeatureManager.process_batch`: raise `ValueError` when no processor
has been added, otherwise delegate every item to `self.processors[0]` and
gather the per-item outcomes. -/
def process_batch (ex : Nat → Except String ResultRecord) (procs : List Processor)
    (items : List InputRecord) :
    Except ProcError (List (Except ProcError ResultRecord)) × List Processor :=
  match procs with
  | [] => (Except.error (ProcError.validationError "No processors available"), [])
  | p :: rest =>
    (Except.ok (processSeq p.config ex items p.state).fst,
      { p with state := (processSeq p.config ex items p.state).snd } :: rest)

/-- `FeatureManager.add_processor`: append to the processor list. -/
def add_processor (procs : List Processor) (p : Processor) : List Processor :=
  procs ++ [p]

/-! Concrete fixtures used by witnesses, mirroring the sample data of the
unit tests. -/

/-- The sample record of the unit tests. -/
def sampleRecord : InputRecord :=
  [("id", Value.str "test-123"), ("timestamp", Value.int 1234567890), ("payload", Value.obj 0)]

/-- A record missing the `payload` field. -/
def missingPayloadRecord : InputRecord :=
  [("id", Value.str "test-123"), ("timestamp", Value.int 1234567890)]

/-- A fixed successful result value. -/
def resW : ResultRecord :=
  { success := true, data := Value.obj 0, processed_at := "2026-10-12T00:00:00", config := [] }

/-- An oracle that always fails. -/
def exFailW : Nat → Except String ResultRecord := fun _ => Except.error "boom"

/-- An oracle that always succeeds with `resW`. -/
def exOkW : Nat → Except String ResultRecord := fun _ => Except.ok resW

/-! Helper lemmas about the association-list dict model. -/

/-- Storing then looking up the same key yields the stored value. -/
theorem alistGet_dictStore_self {α : Type} (k : String) (v : α) (l : List (String × α)) :
    alistGet k (dictStore k v l) = some v := by
  induction l with
  | nil => simp [dictStore, alistGet]
  | cons kv rest ih =>
    obtain ⟨k₂, v₂⟩ := kv
    by_cases h : k₂ = k <;> simp [dictStore, alistGet, h, ih]

/-- Storing one key leaves lookups of other keys unchanged. -/
theorem alistGet_dictStore_ne {α : Type} {k key : String} (v : α) (l : List (String × α))
    (h : k ≠ key) : alistGet k (dictStore key v l) = alistGet k l := by
  induction l with
  | nil => simp [dictStore, alistGet, Ne.symm h]
  | cons kv rest ih =>
    obtain ⟨k₂, v₂⟩ := kv
    by_cases h₂ : k₂ = key
    · subst h₂
      simp [dictStore, alistGet, Ne.symm h]
    · by_cases h₃ : k₂ = k <;> simp [dictStore, alistGet, h₂, h₃, h, ih]

/-! Helper lemmas about the retry loop. -/

/-- A record missing one of the required fields fails validation. -/
theorem validate_eq_false {data : InputRecord}
    (h : alistGet "id" data = none ∨ alistGet "timestamp" data = none ∨
      alistGet "payload" data = none) :
    validate data = false := by
  rcases h with h | h | h <;> simp [validate, h]

/-- When every invocation of the oracle fails, the retry loop started with
`attempt + fuel = max_retries` and positive fuel consumes all its fuel,
invokes the oracle once per iteration, sleeps `2 ^ a` after every attempt
`a` except the last, bumps `failed` once, and raises a `ProcessingError`
wrapping the error of the last invocation. -/
theorem processLoop_allFail (cfg : FeatureConfig) (errs : Nat → String) (key : String) :
    ∀ (fuel attempt : Nat) (s : ProcState), 1 ≤ fuel →
    (attempt : Int) + fuel = cfg.max_retries →
    processLoop cfg (fun i => Except.error (errs i)) key fuel attempt s =
      (Except.error (ProcError.processingError
        ("Processing failed after " ++ toString cfg.max_retries ++ " attempts")
        (some (errs (s.calls + fuel - 1)))),
       { s with calls := s.calls + fuel, failed := s.failed + 1,
                backoffs := s.backoffs ++ (List.range (fuel - 1)).map (fun j => 2 ^ (attempt + j)) }) := by
  intro fuel
  induction fuel with
  | zero => intro attempt s h; omega
  | succ n ih =>
    intro attempt s _ hsum
    match n, ih with
    | 0, _ =>
      have hlast : (attempt : Int) = cfg.max_retries - 1 := by omega
      simp [processLoop, hlast]
    | m + 1, ih =>
      have hlast : ¬ ((attempt : Int) = cfg.max_retries - 1) := by
        intro hEq
        omega
      have hrec := ih (attempt + 1)
        { s with calls := s.calls + 1, backoffs := s.backoffs ++ [2 ^ attempt] }
        (by omega) (by push_cast; push_cast at hsum; omega)
      conv_lhs => rw [processLoop]
      dsimp only
      rw [if_neg hlast, hrec]
      dsimp only
      have hfun : (fun j => 2 ^ (attempt + 1 + j)) = ((fun j => 2 ^ (attempt + j)) ∘ Nat.succ) := by
        funext j
        show 2 ^ (attempt + 1 + j) = 2 ^ (attempt + (j + 1))
        congr 1
        omega
      have h₁ : s.calls + 1 + (m + 1) - 1 = s.calls + (m + 1 + 1) - 1 := by omega
      have h₂ : s.calls + 1 + (m + 1) = s.calls + (m + 1 + 1) := by omega
      have h₃ : s.backoffs ++ [2 ^ attempt] ++
          List.map (fun j => 2 ^ (attempt + 1 + j)) (List.range (m + 1 - 1)) =
          s.backoffs ++ List.map (fun j => 2 ^ (attempt + j)) (List.range (m + 1 + 1 - 1)) := by
        have hm : m + 1 - 1 = m := by omega
        have hm₂ : m + 1 + 1 - 1 = m + 1 := by omega
        rw [hm, hm₂, List.range_succ_eq_map, hfun]
        simp [List.map_map]
      rw [h₁, h₂, h₃]

/-- When the oracle succeeds at the current call count, the loop returns
that result after a single invocation, storing it in the cache exactly when
caching is enabled and bumping `processed` once. -/
theorem processLoop_firstOk (cfg : FeatureConfig) (ex : Nat → Except String ResultRecord)
    (key : String) (fuel attempt : Nat) (s : ProcState) (r : ResultRecord)
    (hok : ex s.calls = Except.ok r) :
    processLoop cfg ex key (fuel + 1) attempt s =
      (Except.ok r,
       { s with calls := s.calls + 1,
                cache := if cfg.cache_enabled then dictStore key r s.cache else s.cache,
                processed := s.processed + 1 }) := by
  cases hce : cfg.cache_enabled <;> simp [processLoop, hok, hce]

/-! The claims. -/

/-- C1 counterexample: with `maxRetries = 0` and an always-failing
operation, `process` on a valid record invokes the operation zero times
(the `range(0)` loop body never runs), not exactly once as claimed; it
falls through to the fall-back `RuntimeError`. -/
theorem claim1_counterexample :
    (process { max_retries := 0 } exFailW sampleRecord initState).snd.calls = 0 ∧
    ¬ ((process { max_retries := 0 } exFailW sampleRecord initState).snd.calls = 1) ∧
    (process { max_retries := 0 } exFailW sampleRecord initState).fst =
      Except.error (ProcError.processingError "Unexpected processing failure" none) := by
  refine ⟨rfl, by decide, rfl⟩

/-- C1 (amended): when `maxRetries` is `0`, `process` on a valid record
that is not cached never invokes the external operation and fails
immediately with the fall-back `ProcessingError`, performing no backoff
suspension and leaving the whole state (cache, counters) unchanged. -/
theorem claim1_amended (cfg : FeatureConfig) (ex : Nat → Except String ResultRecord)
    (data : InputRecord) (s : ProcState)
    (hN : cfg.max_retries = 0) (hv : validate data = true)
    (hc : cfg.cache_enabled = true → alistGet (cacheKey data) s.cache = none) :
    process cfg ex data s =
      (Except.error (ProcError.processingError "Unexpected processing failure" none), s) := by
  cases hce : cfg.cache_enabled with
  | true => simp [process, hv, hce, hc hce, hN, processLoop]
  | false => simp [process, hv, hce, hN, processLoop]

/-- C1 witness: the amended statement at the sample record with an
always-failing operation and a fresh state. -/
theorem claim1_witness :
    process { max_retries := 0 } exFailW sampleRecord initState =
      (Except.error (ProcError.processingError "Unexpected processing failure" none), initState) :=
  claim1_amended { max_retries := 0 } exFailW sampleRecord initState rfl (by decide)
    (fun _ => rfl)

/-- C3: a record missing any of `id`, `timestamp`, `payload` makes
`process` fail with the `ValidationError` and return the state untouched:
the operation is never invoked (`calls` unchanged) and the cache and all
three counters are exactly as before. -/
theorem claim3_validation_gate (cfg : FeatureConfig) (ex : Nat → Except String ResultRecord)
    (data : InputRecord) (s : ProcState)
    (h : alistGet "id" data = none ∨ alistGet "timestamp" data = none ∨
      alistGet "payload" data = none) :
    process cfg ex data s =
      (Except.error (ProcError.validationError "Invalid input data structure"), s) := by
  simp [process, validate_eq_false h]

/-- C3 witness: the record missing `payload` is rejected with no state
change. -/
theorem claim3_witness :
    process {} exFailW missingPayloadRecord initState =
      (Except.error (ProcError.validationError "Invalid input data structure"), initState) :=
  claim3_validation_gate {} exFailW missingPayloadRecord initState
    (Or.inr (Or.inr (by decide)))

/-- C6 counterexample: a mapping carrying a negative retry count is
accepted by the factory without any `ConfigurationError`, refuting the
claim that a negative retry count is rejected at construction. -/
theorem claim6_counterexample :
    create_feature_processor (some [("max_retries", ConfigValue.int (-1))]) =
      Except.ok ({ max_retries := -1 }, initState) := by
  rfl

/-- C6 (amended): construction from a mapping fails with the
construction-time error whenever the mapping contains an unknown field
name (and the offending key it reports is indeed unknown); a negative
retry count, however, is accepted without error. -/
theorem claim6_amended (d : List (String × ConfigValue)) (k : String) (v : ConfigValue)
    (hmem : (k, v) ∈ d) (hunk : ¬ k ∈ featureConfigFields) :
    (∃ k₂, FeatureConfig.ofDict d = Except.error (ConfigError.typeError k₂) ∧
      ¬ k₂ ∈ featureConfigFields) ∧
    (create_feature_processor (some [("max_retries", ConfigValue.int (-1))])).isOk = true := by
  refine ⟨?_, rfl⟩
  unfold FeatureConfig.ofDict
  cases hfind : d.find? (fun kv => !(featureConfigFields.contains kv.fst)) with
  | none =>
    exfalso
    have hall := List.find?_eq_none.mp hfind (k, v) hmem
    simp at hall
    exact hunk hall
  | some kv =>
    refine ⟨kv.fst, rfl, ?_⟩
    have hp := List.find?_some hfind
    simp at hp
    exact hp

/-- C6 witness: a mapping with the unknown key `bogus` is rejected. -/
theorem claim6_witness :
    (∃ k₂, FeatureConfig.ofDict [("bogus", ConfigValue.int 1)] =
        Except.error (ConfigError.typeError k₂) ∧ ¬ k₂ ∈ featureConfigFields) ∧
    (create_feature_processor (some [("max_retries", ConfigValue.int (-1))])).isOk = true :=
  claim6_amended [("bogus", ConfigValue.int 1)] "bogus" (ConfigValue.int 1)
    (by decide) (by decide)

/-- C9: batch dispatch uses only the first processor: the outcome sequence
is the same whatever processors follow the first, and the states of all
later processors (their caches and metrics) are returned untouched, with
only the head processor's state advanced. -/
theorem claim9_first_processor (ex : Nat → Except String ResultRecord) (p : Processor)
    (rest rest₂ : List Processor) (items : List InputRecord) :
    (process_batch ex (p :: rest) items).fst = (process_batch ex (p :: rest₂) items).fst ∧
    (process_batch ex (p :: rest) items).snd =
      { p with state := (processSeq p.config ex items p.state).snd } :: rest := by
  exact ⟨rfl, rfl⟩

/-- C2: with `maxRetries = N ≥ 1` and an operation failing on every
attempt, `process` on a valid uncached record invokes the operation
exactly `N` times, increments `failed` by exactly 1, leaves the cache
unchanged, and fails with a `ProcessingError` wrapping the failure of the
last invocation. -/
theorem claim2_retry_exhaustion (cfg : FeatureConfig) (errs : Nat → String)
    (data : InputRecord) (s : ProcState) (N : Nat)
    (hN : 1 ≤ N) (hcfg : cfg.max_retries = (N : Int)) (hv : validate data = true)
    (hc : cfg.cache_enabled = true → alistGet (cacheKey data) s.cache = none) :
    (process cfg (fun i => Except.error (errs i)) data s).fst =
      Except.error (ProcError.processingError
        ("Processing failed after " ++ toString cfg.max_retries ++ " attempts")
        (some (errs (s.calls + N - 1)))) ∧
    (process cfg (fun i => Except.error (errs i)) data s).snd.calls = s.calls + N ∧
    (process cfg (fun i => Except.error (errs i)) data s).snd.failed = s.failed + 1 ∧
    (process cfg (fun i => Except.error (errs i)) data s).snd.cache = s.cache := by
  have htn : cfg.max_retries.toNat = N := by omega
  have hloop := processLoop_allFail cfg errs (cacheKey data) N 0 s hN (by omega)
  have hproc : process cfg (fun i => Except.error (errs i)) data s =
      processLoop cfg (fun i => Except.error (errs i)) (cacheKey data) N 0 s := by
    cases hce : cfg.cache_enabled with
    | true => simp [process, hv, hce, hc hce, htn]
    | false => simp [process, hv, hce, htn]
  rw [hproc, hloop]
  exact ⟨rfl, rfl, rfl, rfl⟩

/-- C2 witness: `maxRetries = 2` with an always-failing operation on the
sample record: two invocations, `failed` becomes 1, the cache stays empty,
and the error wraps the last failure. -/
theorem claim2_witness :
    (process { max_retries := 2 } (fun i => Except.error ((fun _ => "boom") i))
        sampleRecord initState).fst =
      Except.error (ProcError.processingError "Processing failed after 2 attempts"
        (some "boom")) ∧
    (process { max_retries := 2 } (fun i => Except.error ((fun _ => "boom") i))
        sampleRecord initState).snd.calls = 0 + 2 ∧
    (process { max_retries := 2 } (fun i => Except.error ((fun _ => "boom") i))
        sampleRecord initState).snd.failed = 0 + 1 ∧
    (process { max_retries := 2 } (fun i => Except.error ((fun _ => "boom") i))
        sampleRecord initState).snd.cache = initState.cache :=
  claim2_retry_exhaustion { max_retries := 2 } (fun _ => "boom") sampleRecord initState 2
    (by decide) (by decide) (by decide) (fun _ => rfl)

/-- C7: over a run in which every attempt fails, with `maxRetries = N ≥ 1`,
the backoff suspensions appended by one `process` call are exactly
`2 ^ 0, 2 ^ 1, …, 2 ^ (N - 2)` in order: a sleep of `2 ^ i` follows the
failed attempt of index `i` exactly when `i < N - 1`, and none follows the
last attempt. -/
theorem claim7_backoff (cfg : FeatureConfig) (errs : Nat → String)
    (data : InputRecord) (s : ProcState) (N : Nat)
    (hN : 1 ≤ N) (hcfg : cfg.max_retries = (N : Int)) (hv : validate data = true)
    (hc : cfg.cache_enabled = true → alistGet (cacheKey data) s.cache = none) :
    (process cfg (fun i => Except.error (errs i)) data s).snd.backoffs =
      s.backoffs ++ (List.range (N - 1)).map (fun i => 2 ^ i) := by
  have htn : cfg.max_retries.toNat = N := by omega
  have hloop := processLoop_allFail cfg errs (cacheKey data) N 0 s hN (by omega)
  have hproc : process cfg (fun i => Except.error (errs i)) data s =
      processLoop cfg (fun i => Except.error (errs i)) (cacheKey data) N 0 s := by
    cases hce : cfg.cache_enabled with
    | true => simp [process, hv, hce, hc hce, htn]
    | false => simp [process, hv, hce, htn]
  rw [hproc, hloop]
  simp

/-- C7 witness: `maxRetries = 3` with an always-failing operation yields
the backoff trace `[1, 2]`. -/
theorem claim7_witness :
    (process { max_retries := 3 } (fun i => Except.error ((fun _ => "boom") i))
        sampleRecord initState).snd.backoffs = [1, 2] := by
  have h := claim7_backoff { max_retries := 3 } (fun _ => "boom") sampleRecord initState 3
    (by decide) (by decide) (by decide) (fun _ => rfl)
  rw [h]
  rfl

/-- C4: with caching enabled, a positive retry bound, and the operation
succeeding at the first attempt, two sequential `process` calls on records
with identical `id` and `timestamp` both return the same `ResultRecord`;
the second call does not invoke the operation (`calls` unchanged), bumps
`cache_hits` by exactly 1, and leaves `processed` unchanged. -/
theorem claim4_idempotence (cfg : FeatureConfig) (ex : Nat → Except String ResultRecord)
    (d₁ d₂ : InputRecord) (s : ProcState) (r : ResultRecord)
    (hcache : cfg.cache_enabled = true) (hN : 1 ≤ cfg.max_retries)
    (hv₁ : validate d₁ = true) (hv₂ : validate d₂ = true)
    (hid : alistGet "id" d₂ = alistGet "id" d₁)
    (hts : alistGet "timestamp" d₂ = alistGet "timestamp" d₁)
    (hmiss : alistGet (cacheKey d₁) s.cache = none)
    (hok : ex s.calls = Except.ok r) :
    (process cfg ex d₁ s).fst = Except.ok r ∧
    (process cfg ex d₂ (process cfg ex d₁ s).snd).fst = Except.ok r ∧
    (process cfg ex d₂ (process cfg ex d₁ s).snd).snd.calls =
      (process cfg ex d₁ s).snd.calls ∧
    (process cfg ex d₂ (process cfg ex d₁ s).snd).snd.cache_hits =
      (process cfg ex d₁ s).snd.cache_hits + 1 ∧
    (process cfg ex d₂ (process cfg ex d₁ s).snd).snd.processed =
      (process cfg ex d₁ s).snd.processed := by
  have hkey : cacheKey d₂ = cacheKey d₁ := by
    simp [cacheKey, hid, hts]
  have hfuel : cfg.max_retries.toNat = (cfg.max_retries.toNat - 1) + 1 := by omega
  have hfirst : process cfg ex d₁ s =
      (Except.ok r,
       { s with calls := s.calls + 1,
                cache := dictStore (cacheKey d₁) r s.cache,
                processed := s.processed + 1 }) := by
    rw [process]
    simp only [hv₁, if_true, hcache, if_true]
    rw [hfuel, processLoop_firstOk cfg ex (cacheKey d₁) _ 0 s r hok]
    simp [hcache, hmiss]
  have hhit : alistGet (cacheKey d₂) (dictStore (cacheKey d₁) r s.cache) = some r := by
    rw [hkey]
    exact alistGet_dictStore_self (cacheKey d₁) r s.cache
  rw [hfirst]
  have hsecond : process cfg ex d₂
      ({ s with calls := s.calls + 1,
                cache := dictStore (cacheKey d₁) r s.cache,
                processed := s.processed + 1 } : ProcState) =
      (Except.ok r,
       { s with calls := s.calls + 1,
                cache := dictStore (cacheKey d₁) r s.cache,
                processed := s.processed + 1,
                cache_hits := s.cache_hits + 1 }) := by
    rw [process]
    simp only [hv₂, if_true, hcache, if_true]
    rw [hhit]
  rw [hsecond]
  exact ⟨rfl, rfl, rfl, rfl, rfl⟩

/-- C4 witness: the idempotence statement at the sample record with an
always-succeeding operation and a fresh state. -/
theorem claim4_witness :
    (process {} exOkW sampleRecord initState).fst = Except.ok resW ∧
    (process {} exOkW sampleRecord (process {} exOkW sampleRecord initState).snd).fst =
      Except.ok resW ∧
    (process {} exOkW sampleRecord (process {} exOkW sampleRecord initState).snd).snd.calls =
      (process {} exOkW sampleRecord initState).snd.calls ∧
    (process {} exOkW sampleRecord
        (process {} exOkW sampleRecord initState).snd).snd.cache_hits =
      (process {} exOkW sampleRecord initState).snd.cache_hits + 1 ∧
    (process {} exOkW sampleRecord
        (process {} exOkW sampleRecord initState).snd).snd.processed =
      (process {} exOkW sampleRecord initState).snd.processed :=
  claim4_idempotence {} exOkW sampleRecord sampleRecord initState resW rfl (by decide)
    (by decide) (by decide) rfl rfl rfl rfl

/-- The gathered outcome sequence has one slot per input item. -/
theorem processSeq_length (cfg : FeatureConfig) (ex : Nat → Except String ResultRecord) :
    ∀ (items : List InputRecord) (s : ProcState),
    (processSeq cfg ex items s).fst.length = items.length := by
  intro items
  induction items with
  | nil => intro s; rfl
  | cons x xs ih => intro s; simp [processSeq, ih]

/-- Slot `i` of the gathered sequence is exactly the outcome of processing
item `i` in the state reached after the items before it. -/
theorem processSeq_slot (cfg : FeatureConfig) (ex : Nat → Except String ResultRecord) :
    ∀ (items : List InputRecord) (s : ProcState) (i : Nat) (item : InputRecord),
    items[i]? = some item →
    (processSeq cfg ex items s).fst[i]? =
      some (process cfg ex item (processSeq cfg ex (items.take i) s).snd).fst := by
  intro items
  induction items with
  | nil => intro s i item h; simp at h
  | cons x xs ih =>
    intro s i item h
    cases i with
    | zero =>
      simp at h
      subst h
      simp [processSeq]
    | succ j =>
      simp only [List.getElem?_cons_succ] at h
      have hx := ih (process cfg ex x s).snd j item h
      simpa [processSeq] using hx

/-- Any entry found in the cache after the retry loop either was already
there or is the payload of a successful oracle invocation stored under the
loop's key. -/
theorem processLoop_cache_provenance (cfg : FeatureConfig)
    (ex : Nat → Except String ResultRecord) (key : String) :
    ∀ (fuel attempt : Nat) (s : ProcState) (k : String) (r : ResultRecord),
    alistGet k (processLoop cfg ex key fuel attempt s).snd.cache = some r →
    alistGet k s.cache = some r ∨ (k = key ∧ ∃ i, ex i = Except.ok r) := by
  intro fuel
  induction fuel with
  | zero =>
    intro attempt s k r h
    simp only [processLoop] at h
    exact Or.inl h
  | succ n ih =>
    intro attempt s k r h
    rw [processLoop] at h
    dsimp only at h
    cases hex : ex s.calls with
    | ok result =>
      rw [hex] at h
      dsimp only at h
      by_cases hce : cfg.cache_enabled
      · rw [if_pos hce] at h
        dsimp only at h
        by_cases hk : k = key
        · subst hk
          rw [alistGet_dictStore_self] at h
          refine Or.inr ⟨rfl, s.calls, ?_⟩
          rw [hex]
          exact congrArg Except.ok (Option.some.injEq _ _ ▸ h)
        · rw [alistGet_dictStore_ne _ _ hk] at h
          exact Or.inl h
      · rw [if_neg hce] at h
        exact Or.inl h
    | error e =>
      rw [hex] at h
      dsimp only at h
      by_cases hlast : (attempt : Int) = cfg.max_retries - 1
      · rw [if_pos hlast] at h
        exact Or.inl h
      · rw [if_neg hlast] at h
        exact ih (attempt + 1)
          { s with calls := s.calls + 1, backoffs := s.backoffs ++ [2 ^ attempt] } k r h
/-- Any entry found in the cache after one `process` call either was
already present or is a result some oracle invocation succeeded with,
stored under that record's cache key. -/
theorem process_cache_provenance (cfg : FeatureConfig)
    (ex : Nat → Except String ResultRecord) (data : InputRecord) (s : ProcState)
    (k : String) (r : ResultRecord)
    (h : alistGet k (process cfg ex data s).snd.cache = some r) :
    alistGet k s.cache = some r ∨ (k = cacheKey data ∧ ∃ i, ex i = Except.ok r) := by
  rw [process] at h
  cases hv : validate data with
  | false =>
    simp only [hv, Bool.false_eq_true, if_false] at h
    exact Or.inl h
  | true =>
    simp only [hv, if_true] at h
    cases hl : (if cfg.cache_enabled then alistGet (cacheKey data) s.cache else none) with
    | some r₂ =>
      rw [hl] at h
      dsimp only at h
      exact Or.inl h
    | none =>
      rw [hl] at h
      dsimp only at h
      exact processLoop_cache_provenance cfg ex (cacheKey data) _ 0 s k r h

/-- C5: batch processing fails fast only with no processor configured;
otherwise it yields exactly one slot per input record, in input order,
where slot `i` is that record's own outcome — its error when its
processing failed and its `ResultRecord` otherwise — so one record's
failure never removes or alters a sibling slot. -/
theorem claim5_batch_slots (ex : Nat → Except String ResultRecord) (p : Processor)
    (rest : List Processor) (items : List InputRecord) :
    (process_batch ex [] items).fst =
      Except.error (ProcError.validationError "No processors available") ∧
    (process_batch ex (p :: rest) items).fst =
      Except.ok (processSeq p.config ex items p.state).fst ∧
    (processSeq p.config ex items p.state).fst.length = items.length ∧
    (∀ (i : Nat) (item : InputRecord), items[i]? = some item →
      (processSeq p.config ex items p.state).fst[i]? =
        some (process p.config ex item (processSeq p.config ex (items.take i) p.state).snd).fst) := by
  exact ⟨rfl, rfl, processSeq_length p.config ex items p.state,
    fun i item h => processSeq_slot p.config ex items p.state i item h⟩

/-- C5 witness: in a two-item batch whose second record fails validation,
the second slot holds that record's `ValidationError` while the batch
still has both slots. -/
theorem claim5_witness :
    [sampleRecord, missingPayloadRecord][1]? = some missingPayloadRecord ∧
    (processSeq ({} : FeatureConfig) exOkW [sampleRecord, missingPayloadRecord]
        initState).fst[1]? =
      some (Except.error (ProcError.validationError "Invalid input data structure")) :=
  ⟨by decide,
    (claim5_batch_slots exOkW ⟨{}, initState⟩ [] [sampleRecord, missingPayloadRecord]).2.2.2
      1 missingPayloadRecord (by decide)⟩

/-- C8: every key present in the cache after any engine operation maps to
a `ResultRecord` some successful execution produced for that key: a
`process` call only ever adds, under the record's own cache key, a value
the oracle succeeded with (never an error outcome); `clear_cache` leaves
the cache empty; and reading the metrics snapshot leaves the state
untouched. -/
theorem claim8_cache_invariant :
    (∀ (cfg : FeatureConfig) (ex : Nat → Except String ResultRecord) (data : InputRecord)
        (s : ProcState) (k : String) (r : ResultRecord),
      alistGet k (process cfg ex data s).snd.cache = some r →
      alistGet k s.cache = some r ∨ (k = cacheKey data ∧ ∃ i, ex i = Except.ok r)) ∧
    (∀ s : ProcState, (clear_cache s).cache = []) ∧
    (∀ s : ProcState, (get_metrics s).snd = s) :=
  ⟨fun cfg ex data s k r h => process_cache_provenance cfg ex data s k r h,
    fun _ => rfl, fun _ => rfl⟩

/-- C8 witness: the entry the first successful call stores for the sample
record is accounted for by a successful oracle invocation under the
record's key. -/
theorem claim8_witness :
    alistGet "test-123:1234567890" initState.cache = some resW ∨
    ("test-123:1234567890" = cacheKey sampleRecord ∧ ∃ i, exOkW i = Except.ok resW) :=
  claim8_cache_invariant.1 {} exOkW sampleRecord initState "test-123:1234567890" resW
    (by decide)

/-- C10: clearing the cache leaves the three counters exactly as they
were, and reading the metrics snapshot changes neither the cache nor the
counters (the returned state is the input state). -/
theorem claim10_frame (s : ProcState) :
    (clear_cache s).processed = s.processed ∧
    (clear_cache s).failed = s.failed ∧
    (clear_cache s).cache_hits = s.cache_hits ∧
    (get_metrics s).fst = ⟨s.processed, s.failed, s.cache_hits⟩ ∧
    (get_metrics s).snd = s := by
  exact ⟨rfl, rfl, rfl, rfl, rfl⟩

end Feature
